import Mathlib

/-!
Verification of the real-time clinical session engine
(`main.py`, `app/panels/orchestrator.py`, `app/nlp/rules.py`).

Strings manipulated by the transcription worker are modelled as `List Char`;
Python's `str.strip()` is `pyStrip`, Python's substring test `a in b` is
`pyIn`, and `list(dict.fromkeys(xs))` is `pyDedup`.  Confidence values are
modelled as rationals, which agree with the float literals of the source on
every comparison the code performs.
-/

/-- The whitespace characters removed by Python's `str.strip()`. -/
def isPySpace (c : Char) : Bool :=
  c = ' ' || c = '\t' || c = '\n' || c = '\x0b' || c = '\x0c' || c = '\r'

/-- Python `str.strip()`: drop whitespace from both ends. -/
def pyStrip (l : List Char) : List Char :=
  ((l.dropWhile isPySpace).reverse.dropWhile isPySpace).reverse

/-- `true` when the list neither starts nor ends with Python whitespace.
Every value produced by `pyStrip` satisfies this, and on such lists
`pyStrip` is the identity. -/
def noEdgeSpace (l : List Char) : Bool :=
  (match l.head? with
   | some c => !isPySpace c
   | none => true) &&
  (match l.getLast? with
   | some c => !isPySpace c
   | none => true)

theorem dropWhile_eq_self_of_head? {p : Char → Bool} {l : List Char} {c : Char}
    (h : l.head? = some c) (hc : p c = false) : l.dropWhile p = l := by
  cases l with
  | nil => rfl
  | cons x xs =>
    simp only [List.head?_cons, Option.some.injEq] at h
    subst h
    exact List.dropWhile_cons_of_neg (by simp [hc])

theorem head?_dropWhile_not {p : Char → Bool} :
    ∀ {l : List Char} {c : Char}, (l.dropWhile p).head? = some c → p c = false := by
  intro l
  induction l with
  | nil => intro c h; simp [List.dropWhile] at h
  | cons x xs ih =>
    intro c h
    by_cases hx : p x = true
    · rw [List.dropWhile_cons_of_pos hx] at h
      exact ih h
    · rw [List.dropWhile_cons_of_neg hx] at h
      simp only [List.head?_cons, Option.some.injEq] at h
      subst h
      simpa using hx

theorem getLast?_dropWhile {p : Char → Bool} :
    ∀ {l : List Char}, l.dropWhile p ≠ [] → (l.dropWhile p).getLast? = l.getLast? := by
  intro l
  induction l with
  | nil => intro h; simp [List.dropWhile] at h
  | cons x xs ih =>
    intro h
    by_cases hx : p x = true
    · rw [List.dropWhile_cons_of_pos hx] at h ⊢
      rcases xs with _ | ⟨y, ys⟩
      · simp [List.dropWhile] at h
      · rw [List.getLast?_cons_cons]
        exact ih h
    · rw [List.dropWhile_cons_of_neg hx]

/-- On a list with clean edges, `pyStrip` is the identity. -/
theorem pyStrip_eq_self {l : List Char} (h : noEdgeSpace l = true) : pyStrip l = l := by
  cases l with
  | nil => rfl
  | cons x xs =>
    unfold noEdgeSpace at h
    simp only [Bool.and_eq_true] at h
    obtain ⟨h1, h2⟩ := h
    have hx : isPySpace x = false := by
      simp only [List.head?_cons] at h1
      simpa using h1
    have hdrop : (x :: xs).dropWhile isPySpace = x :: xs :=
      List.dropWhile_cons_of_neg (by simp [hx])
    unfold pyStrip
    rw [hdrop]
    rcases hlast : (x :: xs).getLast? with _ | b
    · exact absurd hlast (by simp)
    · have hb : isPySpace b = false := by
        rw [hlast] at h2
        simpa using h2
      have hrevhead : (x :: xs).reverse.head? = some b := by
        rw [List.head?_reverse]; exact hlast
      rw [dropWhile_eq_self_of_head? hrevhead hb, List.reverse_reverse]

/-- The result of `pyStrip` has clean edges. -/
theorem noEdgeSpace_pyStrip (l : List Char) : noEdgeSpace (pyStrip l) = true := by
  rcases hs : pyStrip l with _ | ⟨c, cs⟩
  · rfl
  · unfold noEdgeSpace
    simp only [Bool.and_eq_true]
    constructor
    · -- head of the strip: equals the last of the inner dropWhile, itself clean
      have hne : (l.dropWhile isPySpace).reverse.dropWhile isPySpace ≠ [] := by
        intro hnil
        rw [pyStrip, hnil] at hs
        simp at hs
      have hh : (pyStrip l).head? = (l.dropWhile isPySpace).head? := by
        rw [pyStrip, List.head?_reverse, getLast?_dropWhile hne, List.getLast?_reverse]
      rw [hs] at hh
      simp only [List.head?_cons] at hh
      have := head?_dropWhile_not (p := isPySpace) hh.symm
      simp [this]
    · have hg : (pyStrip l).getLast? =
          ((l.dropWhile isPySpace).reverse.dropWhile isPySpace).head? := by
        rw [pyStrip, List.getLast?_reverse]
      rw [hs] at hg
      rcases hhd : ((l.dropWhile isPySpace).reverse.dropWhile isPySpace).head? with _ | d
      · rw [hhd] at hg; simp at hg
      · rw [hhd] at hg
        have hd := head?_dropWhile_not (p := isPySpace) hhd
        have : (c :: cs).getLast? = some d := by rw [hg]
        rw [this]
        simp [hd]

theorem getLast?_append_cons :
    ∀ (a : List Char) (c : Char) (b : List Char),
      (a ++ c :: b).getLast? = (c :: b).getLast? := by
  intro a
  induction a with
  | nil => intro c b; rfl
  | cons x xs ih =>
    intro c b
    have hne : xs ++ c :: b ≠ [] := by simp
    rcases h : xs ++ c :: b with _ | ⟨y, l⟩
    · exact absurd h hne
    · show (x :: (xs ++ c :: b)).getLast? = (c :: b).getLast?
      rw [h, List.getLast?_cons_cons, ← h, ih]

theorem noEdgeSpace_append {a b : List Char} (ha : noEdgeSpace a = true)
    (hb : noEdgeSpace b = true) (hna : a ≠ []) (hnb : b ≠ []) :
    noEdgeSpace (a ++ ' ' :: b) = true := by
  rcases a with _ | ⟨x, xs⟩
  · exact absurd rfl hna
  · unfold noEdgeSpace at ha hb ⊢
    simp only [Bool.and_eq_true] at ha hb ⊢
    constructor
    · simpa using ha.1
    · rcases hlast : b.getLast? with _ | d
      · rcases b with _ | ⟨y, ys⟩
        · exact absurd rfl hnb
        · exact absurd hlast (by simp)
      · have : (x :: xs ++ ' ' :: b).getLast? = some d := by
          rw [show x :: xs ++ ' ' :: b = (x :: xs) ++ ' ' :: b from rfl,
            getLast?_append_cons]
          rcases b with _ | ⟨y, ys⟩
          · exact absurd rfl hnb
          · rw [List.getLast?_cons_cons]
            exact hlast
        rw [this]
        rw [hlast] at hb
        exact hb.2

/-- On clean-edged nonempty pieces, stripping the single-space join is the identity. -/
theorem pyStrip_append {a b : List Char} (ha : noEdgeSpace a = true)
    (hb : noEdgeSpace b = true) (hna : a ≠ []) (hnb : b ≠ []) :
    pyStrip (a ++ ' ' :: b) = a ++ ' ' :: b :=
  pyStrip_eq_self (noEdgeSpace_append ha hb hna hnb)

/-! ### The transcription worker (`process_audio_queue`, main.py 110-144)

Each dequeued chunk is transcribed; the worker's per-chunk body
(main.py 128-135) is `process_chunk`: it receives the transcription
result for the chunk (empty on any transcription failure, since
`transcribe_audio_chunk` catches every exception and returns `""`)
and the current stored transcript, and returns the new transcript. -/

/-- main.py 128-133: body of the worker loop for one chunk, acting on the
stored transcript. `transcription` is the text the external transcriber
returned for the chunk. -/
def process_chunk (transcript : List Char) (transcription : List Char) : List Char :=
  if pyStrip transcription ≠ [] then
    let cleaned := pyStrip transcription
    let current_text := pyStrip transcript
    if current_text ≠ [] then pyStrip (current_text ++ ' ' :: cleaned) else cleaned
  else transcript

/-- The transcript produced by the worker after consuming, in order, chunks
whose transcription results are `transcriptions`, starting from the empty
transcript installed at session creation (main.py 162). -/
def process_audio_queue (transcriptions : List (List Char)) : List Char :=
  transcriptions.foldl process_chunk []

/-- Modelled from the spec: "append to transcript joined by a single space
(no leading space if transcript was previously empty)" — the non-empty
trimmed transcriptions, joined by one space. -/
def joinWithSpace : List (List Char) → List Char
  | [] => []
  | [w] => w
  | w :: v :: ws => w ++ ' ' :: joinWithSpace (v :: ws)

/-- The spec-side description of the final transcript. -/
def joinedBySpace (transcriptions : List (List Char)) : List Char :=
  joinWithSpace ((transcriptions.map pyStrip).filter (fun w => w ≠ []))

/-- One worker step, as the spec describes it. -/
def specStep (t : List Char) (c : List Char) : List Char :=
  if pyStrip c = [] then t
  else if t = [] then pyStrip c else t ++ ' ' :: pyStrip c

theorem process_chunk_eq_specStep {t : List Char} (ht : noEdgeSpace t = true)
    (c : List Char) : process_chunk t c = specStep t c := by
  unfold process_chunk specStep
  by_cases hc : pyStrip c = []
  · simp [hc]
  · simp only [hc, if_neg hc, ite_not, if_neg (by simpa using hc)]
    rw [pyStrip_eq_self ht]
    by_cases htn : t = []
    · simp [htn]
    · simp only [htn, if_neg htn]
      rw [if_neg (by simp [htn])]
      exact pyStrip_append ht (noEdgeSpace_pyStrip c) htn hc

theorem noEdgeSpace_specStep {t : List Char} (ht : noEdgeSpace t = true)
    (c : List Char) : noEdgeSpace (specStep t c) = true := by
  unfold specStep
  by_cases hc : pyStrip c = []
  · simp [hc, ht]
  · by_cases htn : t = []
    · simp [hc, htn, noEdgeSpace_pyStrip]
    · simp only [hc, if_neg hc, if_neg htn]
      exact noEdgeSpace_append ht (noEdgeSpace_pyStrip c) htn hc

/-- Left-fold form of the space-join, starting from transcript `t`. -/
def glue (t : List Char) (ws : List (List Char)) : List Char :=
  ws.foldl (fun acc w => if acc = [] then w else acc ++ ' ' :: w) t

theorem glue_cons (t : List Char) (w : List Char) (ws : List (List Char)) :
    glue t (w :: ws) = glue (if t = [] then w else t ++ ' ' :: w) ws := rfl

/-- The single-space join written with an explicit separator map. -/
def spaced (ws : List (List Char)) : List Char :=
  (ws.map (fun w => ' ' :: w)).flatten

theorem glue_ne : ∀ (ws : List (List Char)) (t : List Char), t ≠ [] →
    glue t ws = t ++ spaced ws := by
  intro ws
  induction ws with
  | nil => intro t _; simp [glue, spaced]
  | cons w vs ih =>
    intro t ht
    rw [glue_cons, if_neg ht, ih _ (by simp)]
    simp [spaced]

theorem joinWithSpace_cons (w : List Char) (ws : List (List Char)) :
    joinWithSpace (w :: ws) = w ++ spaced ws := by
  induction ws generalizing w with
  | nil => simp [joinWithSpace, spaced]
  | cons v vs ih =>
    rw [joinWithSpace, ih v]
    simp [spaced]

theorem glue_nil_eq_join (ws : List (List Char)) (hne : ∀ w ∈ ws, w ≠ []) :
    glue [] ws = joinWithSpace ws := by
  cases ws with
  | nil => rfl
  | cons w vs =>
    rw [glue_cons, if_pos rfl, joinWithSpace_cons]
    exact glue_ne vs w (hne w (by simp))

theorem foldl_process_chunk (ts : List (List Char)) :
    ∀ t, noEdgeSpace t = true →
      ts.foldl process_chunk t = glue t ((ts.map pyStrip).filter (fun w => w ≠ [])) := by
  induction ts with
  | nil => intro t _; simp [glue]
  | cons c cs ih =>
    intro t ht
    rw [List.foldl_cons, process_chunk_eq_specStep ht c,
      ih _ (noEdgeSpace_specStep ht c)]
    by_cases hc : pyStrip c = []
    · simp [hc, specStep]
    · simp only [List.map_cons, List.filter_cons, hc]
      rw [if_pos (by simpa using hc), glue_cons]
      unfold specStep
      rw [if_neg hc]

/-- **C1.** For every sequence of audio chunks processed in order by a
session's transcription worker, a chunk whose transcription is empty after
trimming changes nothing; a chunk whose transcription is non-empty after
trimming is appended to the transcript joined by a single space, with no
leading space when the transcript was previously empty; consequently the
final transcript is the space-join of the non-empty trimmed transcriptions,
and for transcriptions "Ola", "", "Jorge" it equals exactly "Ola Jorge". -/
theorem c1_worker_transcript :
    (∀ t c, pyStrip c = [] → process_chunk t c = t) ∧
    (∀ t c, noEdgeSpace t = true → pyStrip c ≠ [] →
      process_chunk t c = if t = [] then pyStrip c else t ++ ' ' :: pyStrip c) ∧
    (∀ ts, process_audio_queue ts = joinedBySpace ts) ∧
    process_audio_queue ["Ola".data, "".data, "Jorge".data] = "Ola Jorge".data := by
  refine ⟨?_, ?_, ?_, ?_⟩
  · intro t c hc
    unfold process_chunk
    simp [hc]
  · intro t c ht hc
    rw [process_chunk_eq_specStep ht c]
    unfold specStep
    rw [if_neg hc]
  · intro ts
    rw [process_audio_queue, foldl_process_chunk ts [] rfl, joinedBySpace,
      glue_nil_eq_join]
    intro w hw
    have hw2 := (List.mem_filter.mp hw).2
    simpa using hw2
  · decide

/-- Witness for `c1_worker_transcript` at concrete inputs. -/
theorem c1_worker_transcript_witness :
    process_chunk "Ola".data "  ".data = "Ola".data ∧
    process_chunk "Ola".data " Jorge ".data = "Ola Jorge".data := by
  constructor
  · exact c1_worker_transcript.1 _ _ (by decide)
  · have h := c1_worker_transcript.2.1 "Ola".data " Jorge ".data (by decide) (by decide)
    rw [h]
    decide

/-! ### Finalize drains the queue before the report (main.py 177-226)

The audio websocket handler receives messages sequentially: binary chunks
are put on the session's queue (main.py 188); the `__finalize__` text
message leaves the receive loop, awaits `queue.join()` (main.py 200) —
which returns only once `task_done` has been called for every item that was
ever put, i.e. the worker has fully processed every chunk enqueued before
the signal — and only then computes and sends the final report
(main.py 203-221).  The interleaving of the handler coroutine and the
worker coroutine is modelled as a small-step transition system counting
enqueued and processed chunks. -/

inductive SessionPhase where
  | receiving
  | draining
  | reported
deriving DecidableEq

structure SessionState where
  enqueued : Nat
  processed : Nat
  phase : SessionPhase
deriving DecidableEq

def initialSession : SessionState := ⟨0, 0, .receiving⟩

/-- One scheduler-granularity step of the session: a chunk is put on the
queue (only while the receive loop runs), the worker finishes one pending
chunk and calls `task_done`, the finalize signal arrives, or `queue.join()`
returns — which `asyncio.Queue.join` does only when every put item has had
its matching `task_done`. -/
inductive SessionStep : SessionState → SessionState → Prop where
  | enqueue (s : SessionState) (h : s.phase = .receiving) :
      SessionStep s ⟨s.enqueued + 1, s.processed, s.phase⟩
  | work (s : SessionState) (h : s.processed < s.enqueued) :
      SessionStep s ⟨s.enqueued, s.processed + 1, s.phase⟩
  | finalizeSignal (s : SessionState) (h : s.phase = .receiving) :
      SessionStep s ⟨s.enqueued, s.processed, .draining⟩
  | joinReturn (s : SessionState) (h : s.phase = .draining)
      (hdone : s.processed = s.enqueued) :
      SessionStep s ⟨s.enqueued, s.processed, .reported⟩

/-- **C2.** The final report is never produced before every chunk enqueued
prior to the finalize signal has been fully processed: in any reachable
state in which the report has been computed, the number of processed chunks
equals the number of enqueued chunks (and no chunk can be enqueued after
the finalize signal, so these are exactly the pre-finalize chunks). -/
theorem sessionStep_preserves {a b : SessionState} (hstep : SessionStep a b)
    (iha : a.phase = .reported → a.processed = a.enqueued) :
    b.phase = .reported → b.processed = b.enqueued := by
  cases hstep with
  | enqueue h =>
    intro hr
    have hr2 : a.phase = SessionPhase.reported := hr
    rw [h] at hr2
    simp at hr2
  | work h =>
    intro hr
    have hr2 : a.phase = SessionPhase.reported := hr
    have := iha hr2
    show a.processed + 1 = a.enqueued
    omega
  | finalizeSignal h =>
    intro hr
    have hr2 : SessionPhase.draining = SessionPhase.reported := hr
    simp at hr2
  | joinReturn h hdone =>
    intro _
    exact hdone

theorem c2_drain_before_report (s : SessionState)
    (hreach : Relation.ReflTransGen SessionStep initialSession s)
    (hrep : s.phase = .reported) : s.processed = s.enqueued := by
  revert hrep
  induction hreach with
  | refl => intro h; simp [initialSession] at h
  | tail _ hstep ih => exact sessionStep_preserves hstep ih

/-- Witness for `c2_drain_before_report`: a run that enqueues one chunk,
receives the finalize signal, processes the chunk, and reports. -/
theorem c2_drain_before_report_witness :
    (⟨1, 1, .reported⟩ : SessionState).processed =
      (⟨1, 1, .reported⟩ : SessionState).enqueued := by
  have s1 : SessionStep initialSession ⟨1, 0, .receiving⟩ :=
    SessionStep.enqueue initialSession rfl
  have s2 : SessionStep ⟨1, 0, .receiving⟩ ⟨1, 0, .draining⟩ :=
    SessionStep.finalizeSignal _ rfl
  have s3 : SessionStep ⟨1, 0, .draining⟩ ⟨1, 1, .draining⟩ :=
    SessionStep.work _ (by decide)
  have s4 : SessionStep ⟨1, 1, .draining⟩ ⟨1, 1, .reported⟩ :=
    SessionStep.joinReturn _ rfl rfl
  exact c2_drain_before_report _
    (Relation.ReflTransGen.tail
      (Relation.ReflTransGen.tail
        (Relation.ReflTransGen.tail (Relation.ReflTransGen.single s1) s2) s3) s4)
    rfl

/-! ### Clinical data model (app/models.py) and rule engine (app/nlp/rules.py)

Python's substring test `a in b` is `pyIn`; `", ".join(xs)` is
`String.intercalate ", " xs`; float confidence literals become rationals
(all comparisons the code performs agree). -/

/-- `needle` is a prefix-match of `hay` (helper for the substring test). -/
def hasPre : List Char → List Char → Bool
  | [], _ => true
  | _ :: _, [] => false
  | n :: ns, h :: hs => n == h && hasPre ns hs

/-- Python `needle in hay` on lists of characters. -/
def pyInL (needle : List Char) : List Char → Bool
  | [] => hasPre needle []
  | h :: hs => hasPre needle (h :: hs) || pyInL needle hs

/-- Python substring test `needle in hay` on strings. -/
def pyIn (needle hay : String) : Bool := pyInL needle.data hay.data

/-- app/models.py `ClinicalFacts`. -/
structure ClinicalFacts where
  sintomas : List String := []
  sintomas_negados : List String := []
  achados_exame : List String := []
  medicamentos : List String := []
  alergias : List String := []
  antecedentes : List String := []
  red_flags : List String := []
deriving DecidableEq

/-- app/models.py `DiagnosticHypothesis` (pydantic constrains `conf` to
[0,1]; every literal the rules produce lies in that range). -/
structure DiagnosticHypothesis where
  dx : String
  conf : ℚ
  porque : List String := []
deriving DecidableEq

/-- app/models.py `PanelsState`. -/
structure PanelsState where
  sindromico : String := ""
  hipoteses : List DiagnosticHypothesis := []
  perguntas : List String := []
  condutas : List String := []
deriving DecidableEq

/-- The dict `{"name": ..., "confidence": ..., "reasons": ...}` the rule
engine emits per diagnosis. -/
structure RuleDiagnosis where
  name : String
  confidence : ℚ
  reasons : List String
deriving DecidableEq

def respiratory_symptoms : List String :=
  ["tosse", "falta de ar", "dispneia", "chiado", "catarro"]

def gi_symptoms : List String :=
  ["náusea", "vômito", "diarreia", "dor abdominal", "azia"]

/-- rules.py 34/51: `any("febre" in s for s in facts.sintomas)`. -/
def has_fever (facts : ClinicalFacts) : Bool :=
  facts.sintomas.any (fun s => pyIn "febre" s)

/-- rules.py 31-46: the respiratory rule's contribution. -/
def diag_resp (facts : ClinicalFacts) : List RuleDiagnosis :=
  if facts.sintomas.any (fun s => respiratory_symptoms.any (fun r => pyIn r s)) then
    if has_fever facts then
      [⟨"Infecção respiratória", 0.85, ["Febre presente", "Sintomas respiratórios"]⟩]
    else
      [⟨"Síndrome respiratória", 0.70, ["Sintomas respiratórios presentes"]⟩]
  else []

/-- rules.py 48-63: the gastrointestinal rule's contribution. -/
def diag_gi (facts : ClinicalFacts) : List RuleDiagnosis :=
  if facts.sintomas.any (fun s => gi_symptoms.any (fun g => pyIn g s)) then
    if has_fever facts then
      [⟨"Gastroenterite", 0.80, ["Febre presente", "Sintomas gastrointestinais"]⟩]
    else
      [⟨"Síndrome gastrointestinal", 0.65, ["Sintomas gastrointestinais presentes"]⟩]
  else []

/-- rules.py 66: `[s for s in facts.sintomas if "dor" in s]`. -/
def pain_symptoms (facts : ClinicalFacts) : List String :=
  facts.sintomas.filter (fun s => pyIn "dor" s)

/-- rules.py 65-79: the pain rule's contribution. -/
def diag_pain (facts : ClinicalFacts) : List RuleDiagnosis :=
  if pain_symptoms facts ≠ [] then
    if (pain_symptoms facts).any (fun s => pyIn "dor de cabeça" s || pyIn "cefaleia" s) then
      [⟨"Cefaleia primária", 0.70, ["Dor de cabeça como sintoma principal"]⟩]
    else
      [⟨"Síndrome dolorosa", 0.60,
        ["Dor localizada: " ++ String.intercalate ", " ((pain_symptoms facts).take 2)]⟩]
  else []

/-- rules.py 83-87: the emergency-condition candidate added when any red
flag is present. -/
def emergency_diagnosis (facts : ClinicalFacts) : RuleDiagnosis :=
  ⟨"CONDIÇÃO DE EMERGÊNCIA", 0.95,
    ["Red flag presente: " ++ String.intercalate ", " facts.red_flags]⟩

/-- rules.py 81-87: the red-flag rule's contribution. -/
def diag_red (facts : ClinicalFacts) : List RuleDiagnosis :=
  if facts.red_flags ≠ [] then [emergency_diagnosis facts] else []

/-- rules.py 89-95: the hypertension rule's contribution. -/
def diag_htn (facts : ClinicalFacts) : List RuleDiagnosis :=
  if facts.achados_exame.any (fun f => pyIn "pressão alta" f || pyIn "hipertensão" f) then
    [⟨"Hipertensão arterial", 0.90, ["Pressão arterial elevada documentada"]⟩]
  else []

/-- The list `diagnoses` accumulated by
`ClinicalRuleEngine.generate_diagnoses` (rules.py 24-95) before the final
truncation: each rule appends its candidate in source order. -/
def diagnoses_accumulated (facts : ClinicalFacts) : List RuleDiagnosis :=
  diag_resp facts ++ diag_gi facts ++ diag_pain facts ++ diag_red facts ++ diag_htn facts

/-- `ClinicalRuleEngine.generate_diagnoses` (rules.py 24-101): the
accumulated candidates, truncated to 5 (`return diagnoses[:5]`).  The
method's `try` body is total, so the exception branch (return `[]`) is
unreachable. -/
def generate_diagnoses (facts : ClinicalFacts) : List RuleDiagnosis :=
  (diagnoses_accumulated facts).take 5

/-- `ClinicalRuleEngine.identify_gaps` (app/nlp/rules.py 103-145).
`current_state` is accepted and ignored, as in the source. -/
def identify_gaps (facts : ClinicalFacts) (current_state : PanelsState) : List String :=
  let g1 : List String :=
    if facts.sintomas.filter (fun s => pyIn "dor" s) ≠ [] then
      ["Caracterizar a dor: intensidade, duração, fatores de melhora/piora"]
    else []
  let g2 : List String :=
    if facts.sintomas.any (fun s => pyIn "febre" s) then
      ["Investigar: há quanto tempo tem febre? Temperatura máxima?"]
    else []
  let g3 : List String :=
    if facts.sintomas.any (fun s => respiratory_symptoms.any (fun r => pyIn r s)) then
      ["Investigar: presença de expectoração, cor do escarro"]
    else []
  let g4 : List String :=
    if facts.sintomas.any (fun s =>
        ["náusea", "vômito", "diarreia"].any (fun g => pyIn g s)) then
      ["Avaliar hidratação e características das evacuações"]
    else []
  let g5 : List String :=
    if facts.achados_exame = [] then ["Verificar sinais vitais completos"] else []
  let g6 : List String :=
    if facts.medicamentos = [] then ["Investigar medicações em uso regular"] else []
  let g7 : List String :=
    if facts.alergias = [] then ["Verificar alergias medicamentosas"] else []
  (g1 ++ g2 ++ g3 ++ g4 ++ g5 ++ g6 ++ g7).take 6

/-- `ClinicalRuleEngine.suggest_management` (app/nlp/rules.py 147-195). -/
def suggest_management (facts : ClinicalFacts) (current_state : PanelsState) :
    List String :=
  let m_red : List String :=
    if facts.red_flags ≠ [] then
      ["🚨 AVALIAÇÃO IMEDIATA NECESSÁRIA", "Considerar encaminhamento para emergência"]
    else []
  let m_fever : List String :=
    if facts.sintomas.any (fun s => pyIn "febre" s) then
      ["Antitérmico se temperatura > 37.8°C", "Hidratação adequada"]
    else []
  let m_pain : List String :=
    if facts.sintomas.any (fun s => pyIn "dor" s) then
      ["Analgesia conforme intensidade (escala 0-10)"]
    else []
  let m_resp : List String :=
    if facts.sintomas.any (fun s => respiratory_symptoms.any (fun r => pyIn r s)) then
      ["Repouso relativo", "Hidratação e umidificação do ambiente"]
    else []
  let m_gi : List String :=
    if facts.sintomas.any (fun s =>
        ["náusea", "vômito", "diarreia"].any (fun g => pyIn g s)) then
      ["Dieta leve e fracionada", "Monitorar sinais de desidratação"]
    else []
  let m_htn : List String :=
    if facts.achados_exame.any (fun f => pyIn "pressão alta" f || pyIn "hipertensão" f) then
      ["Controle da pressão arterial", "Orientações dietéticas (baixo sódio)"]
    else []
  let management := m_red ++ m_fever ++ m_pain ++ m_resp ++ m_gi ++ m_htn
  let management := if management = [] then ["Tratamento sintomático"] else management
  (management ++ ["Retorno se piora ou persistência dos sintomas"]).take 8

/-! ### Panel builder (app/panels/orchestrator.py) -/

theorem length_dropWhile_le {p : Char → Bool} :
    ∀ l : List Char, (l.dropWhile p).length ≤ l.length := by
  intro l
  induction l with
  | nil => simp [List.dropWhile]
  | cons x xs ih =>
    by_cases hx : p x = true
    · rw [List.dropWhile_cons_of_pos hx]
      exact Nat.le_succ_of_le ih
    · rw [List.dropWhile_cons_of_neg hx]

/-- Python `str.split()` with no separator: whitespace-delimited words. -/
def pyWords : List Char → List (List Char)
  | [] => []
  | c :: cs =>
    if h : isPySpace c then pyWords cs
    else
      ((c :: cs).takeWhile (fun x => !isPySpace x)) ::
        pyWords ((c :: cs).dropWhile (fun x => !isPySpace x))
termination_by l => l.length
decreasing_by
  · simp only [List.length_cons]
    omega
  · rw [List.dropWhile_cons_of_pos (by simp [h])]
    simp only [List.length_cons]
    exact Nat.lt_succ_of_le (length_dropWhile_le _)

/-- `generate_syndromic_summary` (orchestrator.py 19-57).  The `try` body
is total, so the except branch (returning a fixed error string) is
unreachable. -/
def generate_syndromic_summary (facts : ClinicalFacts) (full_text : String) : String :=
  let components : List String :=
    (if facts.sintomas ≠ [] then
      ["Sintomas: " ++ String.intercalate ", " (facts.sintomas.take 5)] else []) ++
    (if facts.achados_exame ≠ [] then
      ["Achados: " ++ String.intercalate ", " (facts.achados_exame.take 3)] else []) ++
    (if facts.red_flags ≠ [] then
      ["⚠️ Alertas: " ++ String.intercalate ", " facts.red_flags] else [])
  if components = [] then
    "Dados insuficientes para análise sindrômica. Continue a consulta."
  else
    let text_length := (pyWords full_text.data).length
    let pre :=
      if text_length < 50 then "Início da consulta - "
      else if text_length < 200 then "Consulta em andamento - "
      else "Quadro estabelecido - "
    pre ++ String.intercalate "; " components

/-- `_generate_basic_hypotheses` (orchestrator.py 93-135).  Unlike the rule
engine, these checks look for the pattern inside the single string
`" ".join(symptoms)`. -/
def generate_basic_hypotheses (facts : ClinicalFacts) : List DiagnosticHypothesis :=
  let joined := String.intercalate " " facts.sintomas
  let h_resp : List DiagnosticHypothesis :=
    if respiratory_symptoms.any (fun s => pyIn s joined) then
      [⟨"Síndrome respiratória", 0.7, ["Sintomas respiratórios presentes"]⟩]
    else []
  let h_gi : List DiagnosticHypothesis :=
    if gi_symptoms.any (fun s => pyIn s joined) then
      [⟨"Síndrome gastrointestinal", 0.6, ["Sintomas gastrointestinais presentes"]⟩]
    else []
  let h_fever : List DiagnosticHypothesis :=
    if facts.sintomas.any (fun s => pyIn "febre" s) then
      [⟨"Síndrome febril", 0.8, ["Febre presente", "Possível processo infeccioso"]⟩]
    else []
  let pain_symptoms := facts.sintomas.filter (fun s => pyIn "dor" s)
  let h_pain : List DiagnosticHypothesis :=
    if pain_symptoms ≠ [] then
      [⟨"Síndrome dolorosa", 0.5,
        ["Dor localizada: " ++ String.intercalate ", " (pain_symptoms.take 2)]⟩]
    else []
  h_resp ++ h_gi ++ h_fever ++ h_pain

/-- Stable insertion used by the descending confidence sort: `x` moves past
exactly the elements of strictly greater confidence, so equal-confidence
entries keep their generation order (Python's `list.sort` is stable). -/
def insertDesc (x : DiagnosticHypothesis) :
    List DiagnosticHypothesis → List DiagnosticHypothesis
  | [] => [x]
  | y :: ys => if y.conf > x.conf then y :: insertDesc x ys else x :: y :: ys

/-- `hypotheses.sort(key=lambda x: x.conf, reverse=True)`
(orchestrator.py 84): stable descending sort on `conf`. -/
def sortConfDesc : List DiagnosticHypothesis → List DiagnosticHypothesis
  | [] => []
  | x :: xs => insertDesc x (sortConfDesc xs)

/-- Conversion of a rule-engine dict into a `DiagnosticHypothesis`
(orchestrator.py 71-77). -/
def toHypothesis (d : RuleDiagnosis) : DiagnosticHypothesis :=
  ⟨d.name, d.confidence, d.reasons⟩

/-- The list `hypotheses` of `generate_diagnostic_hypotheses`
(orchestrator.py 65-81) before the sort: the converted rule-engine output,
or the basic hypotheses when the rules produced nothing and symptoms
exist. -/
def hypotheses_generated (facts : ClinicalFacts) : List DiagnosticHypothesis :=
  let hypotheses := (generate_diagnoses facts).map toHypothesis
  if hypotheses = [] ∧ facts.sintomas ≠ [] then generate_basic_hypotheses facts
  else hypotheses

/-- `generate_diagnostic_hypotheses` (orchestrator.py 60-90): the generated
hypotheses, stably sorted by confidence descending, truncated to 5.
`full_text` is accepted and ignored, as in the source. -/
def generate_diagnostic_hypotheses (facts : ClinicalFacts) (full_text : String) :
    List DiagnosticHypothesis :=
  (sortConfDesc (hypotheses_generated facts)).take 5

/-- Helper of `pyDedup`: keep every element not yet seen, in order. -/
def pyDedupAux (seen : List String) : List String → List String
  | [] => []
  | x :: xs => if x ∈ seen then pyDedupAux seen xs else x :: pyDedupAux (x :: seen) xs

/-- Python `list(dict.fromkeys(xs))`: de-duplication keeping the first
occurrence of each element, in order. -/
def pyDedup (l : List String) : List String := pyDedupAux [] l

/-- `_generate_basic_questions` (orchestrator.py 162-193). -/
def generate_basic_questions (facts : ClinicalFacts) : List String :=
  let q_pain : List String :=
    if facts.sintomas.filter (fun s => pyIn "dor" s) ≠ [] then
      ["Qual a intensidade da dor (0-10)?",
       "A dor piora com alguma atividade específica?",
       "Há algo que alivia a dor?"]
    else []
  let q_fever : List String :=
    if facts.sintomas.any (fun s => pyIn "febre" s) then
      ["Há quanto tempo tem febre?", "A febre é contínua ou intermitente?"]
    else []
  let q_hist : List String :=
    if facts.antecedentes = [] then
      ["Tem alguma doença crônica conhecida?", "Toma algum medicamento regularmente?"]
    else []
  let q_all : List String :=
    if facts.alergias = [] then ["Tem alergia a algum medicamento?"] else []
  let q_vit : List String :=
    if facts.achados_exame = [] then ["Verificar sinais vitais (PA, FC, Tax)"] else []
  q_pain ++ q_fever ++ q_hist ++ q_all ++ q_vit

/-- The list `questions` built by `generate_clinical_questions`
(orchestrator.py 143-151) before de-duplication: rule-engine gaps, then
basic triage questions. -/
def question_candidates (facts : ClinicalFacts) (current_state : PanelsState) :
    List String :=
  identify_gaps facts current_state ++ generate_basic_questions facts

/-- `generate_clinical_questions` (orchestrator.py 138-159): the candidate
questions, de-duplicated preserving first occurrence
(`list(dict.fromkeys(questions))`), truncated to 6. -/
def generate_clinical_questions (facts : ClinicalFacts) (current_state : PanelsState) :
    List String :=
  (pyDedup (question_candidates facts current_state)).take 6

/-- `_generate_basic_management` (orchestrator.py 224-252). -/
def generate_basic_management (facts : ClinicalFacts) : List String :=
  let m_pain : List String :=
    if facts.sintomas.any (fun s => pyIn "dor" s) then
      ["Considerar analgesia conforme intensidade da dor"]
    else []
  let m_fever : List String :=
    if facts.sintomas.any (fun s => pyIn "febre" s) then
      ["Antitérmico se febre > 37.8°C", "Investigar foco infeccioso"]
    else []
  let joined := String.intercalate " " facts.sintomas
  let m_gi : List String :=
    if ["náusea", "vômito", "diarreia"].any (fun s => pyIn s joined) then
      ["Atenção à hidratação"]
    else []
  let m_htn : List String :=
    if facts.achados_exame.any (fun s => pyIn "pressão alta" s || pyIn "hipertensão" s) then
      ["Monitorar PA - considerar anti-hipertensivo"]
    else []
  m_pain ++ m_fever ++ m_gi ++ m_htn ++
    ["Agendar retorno conforme evolução",
     "Orientar sinais de alerta para retorno imediato"]

/-- `generate_clinical_management` (orchestrator.py 196-221): rule-engine
suggestions, then basic ones; the red-flag alert is inserted at position 0
when red flags exist; de-duplicated preserving first occurrence, truncated
to 8. -/
def generate_clinical_management (facts : ClinicalFacts) (current_state : PanelsState) :
    List String :=
  let management := suggest_management facts current_state ++
    generate_basic_management facts
  let management :=
    if facts.red_flags ≠ [] then
      ("🚨 RED FLAG: " ++ String.intercalate "; " facts.red_flags) :: management
    else management
  (pyDedup management).take 8

/-- `update_panels` (orchestrator.py 255-289).  The `try`/`except` is made
explicit: `exc = true` stands for an exception raised while building the
new state, upon which the prior `current_state` is returned unchanged; the
function always returns (it never re-raises to its caller). -/
def update_panels (exc : Bool) (current_state : PanelsState) (facts : ClinicalFacts)
    (full_text : String) : PanelsState :=
  if exc then current_state
  else
    { sindromico := generate_syndromic_summary facts full_text
      hipoteses := generate_diagnostic_hypotheses facts full_text
      perguntas := generate_clinical_questions facts current_state
      condutas := generate_clinical_management facts current_state }

/-! ### Properties of the stable descending sort -/

theorem mem_insertDesc {z x : DiagnosticHypothesis} :
    ∀ {l : List DiagnosticHypothesis}, z ∈ insertDesc x l ↔ z = x ∨ z ∈ l := by
  intro l
  induction l with
  | nil => simp [insertDesc]
  | cons y ys ih =>
    unfold insertDesc
    by_cases hcmp : y.conf > x.conf
    · rw [if_pos hcmp]
      simp only [List.mem_cons, ih]
      tauto
    · rw [if_neg hcmp]
      simp only [List.mem_cons]

theorem insertDesc_sorted {x : DiagnosticHypothesis} :
    ∀ {l : List DiagnosticHypothesis}, l.Sorted (fun a b => b.conf ≤ a.conf) →
      (insertDesc x l).Sorted (fun a b => b.conf ≤ a.conf) := by
  intro l
  induction l with
  | nil => intro _; simp [insertDesc]
  | cons y ys ih =>
    intro hl
    rw [List.sorted_cons] at hl
    obtain ⟨hy, hys⟩ := hl
    unfold insertDesc
    by_cases hcmp : y.conf > x.conf
    · rw [if_pos hcmp, List.sorted_cons]
      constructor
      · intro z hz
        rcases mem_insertDesc.mp hz with rfl | hz2
        · exact le_of_lt hcmp
        · exact hy z hz2
      · exact ih hys
    · rw [if_neg hcmp, List.sorted_cons]
      have hyx : y.conf ≤ x.conf := le_of_not_lt hcmp
      constructor
      · intro z hz
        rcases List.mem_cons.mp hz with rfl | hz2
        · exact hyx
        · exact le_trans (hy z hz2) hyx
      · rw [List.sorted_cons]
        exact ⟨hy, hys⟩

theorem sortConfDesc_sorted :
    ∀ l : List DiagnosticHypothesis,
      (sortConfDesc l).Sorted (fun a b => b.conf ≤ a.conf) := by
  intro l
  induction l with
  | nil => simp [sortConfDesc]
  | cons x xs ih => exact insertDesc_sorted ih

theorem mem_sortConfDesc {z : DiagnosticHypothesis} :
    ∀ {l : List DiagnosticHypothesis}, z ∈ sortConfDesc l ↔ z ∈ l := by
  intro l
  induction l with
  | nil => simp [sortConfDesc]
  | cons x xs ih =>
    unfold sortConfDesc
    rw [mem_insertDesc]
    simp only [List.mem_cons, ih]

theorem insertDesc_filter_conf (q : ℚ) (x : DiagnosticHypothesis) :
    ∀ l : List DiagnosticHypothesis,
      (insertDesc x l).filter (fun h => decide (h.conf = q)) =
        ((x :: l).filter (fun h => decide (h.conf = q))) := by
  intro l
  induction l with
  | nil => rfl
  | cons y ys ih =>
    unfold insertDesc
    by_cases hcmp : y.conf > x.conf
    · rw [if_pos hcmp]
      by_cases hyq : y.conf = q
      · by_cases hxq : x.conf = q
        · rw [hxq, hyq] at hcmp
          exact absurd hcmp (lt_irrefl q)
        · simp [List.filter_cons, hyq, hxq, ih]
      · by_cases hxq : x.conf = q
        · simp [List.filter_cons, hyq, hxq, ih]
        · simp [List.filter_cons, hyq, hxq, ih]
    · rw [if_neg hcmp]

theorem sortConfDesc_filter_conf (q : ℚ) :
    ∀ l : List DiagnosticHypothesis,
      (sortConfDesc l).filter (fun h => decide (h.conf = q)) =
        l.filter (fun h => decide (h.conf = q)) := by
  intro l
  induction l with
  | nil => rfl
  | cons x xs ih =>
    unfold sortConfDesc
    rw [insertDesc_filter_conf]
    by_cases hxq : x.conf = q
    · simp [List.filter_cons, hxq, ih]
    · simp [List.filter_cons, hxq, ih]

/-- The head of the stable descending sort is the strict maximum, when one
exists. -/
theorem sortConfDesc_head_max {x : DiagnosticHypothesis}
    {l : List DiagnosticHypothesis} (hx : x ∈ l)
    (hmax : ∀ y ∈ l, y ≠ x → y.conf < x.conf) :
    (sortConfDesc l).head? = some x := by
  have hsort := sortConfDesc_sorted l
  have hmem : x ∈ sortConfDesc l := mem_sortConfDesc.mpr hx
  rcases hS : sortConfDesc l with _ | ⟨z, rest⟩
  · rw [hS] at hmem
    simp at hmem
  · rw [hS] at hmem hsort
    rw [List.sorted_cons] at hsort
    by_cases hzx : z = x
    · subst hzx
      rfl
    · have hz_mem : z ∈ l := mem_sortConfDesc.mp (by rw [hS]; exact List.mem_cons_self z rest)
      have hlt := hmax z hz_mem hzx
      have hx_rest : x ∈ rest := by
        rcases List.mem_cons.mp hmem with h | h
        · exact absurd h.symm hzx
        · exact h
      have hle := hsort.1 x hx_rest
      exact absurd hle (not_le.mpr hlt)

/-! ### Confidence bounds of the rule candidates -/

theorem conf_lt_of_mem_diag_resp {facts : ClinicalFacts} {d : RuleDiagnosis}
    (hd : d ∈ diag_resp facts) : d.confidence < 0.95 := by
  unfold diag_resp at hd
  split at hd
  · split at hd <;> (simp only [List.mem_singleton] at hd; subst hd; norm_num)
  · simp at hd

theorem conf_lt_of_mem_diag_gi {facts : ClinicalFacts} {d : RuleDiagnosis}
    (hd : d ∈ diag_gi facts) : d.confidence < 0.95 := by
  unfold diag_gi at hd
  split at hd
  · split at hd <;> (simp only [List.mem_singleton] at hd; subst hd; norm_num)
  · simp at hd

theorem conf_lt_of_mem_diag_pain {facts : ClinicalFacts} {d : RuleDiagnosis}
    (hd : d ∈ diag_pain facts) : d.confidence < 0.95 := by
  unfold diag_pain at hd
  split at hd
  · split at hd <;> (simp only [List.mem_singleton] at hd; subst hd; norm_num)
  · simp at hd

theorem conf_lt_of_mem_diag_htn {facts : ClinicalFacts} {d : RuleDiagnosis}
    (hd : d ∈ diag_htn facts) : d.confidence < 0.95 := by
  unfold diag_htn at hd
  split at hd
  · simp only [List.mem_singleton] at hd
    subst hd
    norm_num
  · simp at hd

theorem eq_emergency_of_mem_diag_red {facts : ClinicalFacts} {d : RuleDiagnosis}
    (hd : d ∈ diag_red facts) : d = emergency_diagnosis facts := by
  unfold diag_red at hd
  split at hd
  · simpa using hd
  · simp at hd

theorem length_diag_resp_le (facts : ClinicalFacts) : (diag_resp facts).length ≤ 1 := by
  unfold diag_resp
  split
  · split <;> simp
  · simp

theorem length_diag_gi_le (facts : ClinicalFacts) : (diag_gi facts).length ≤ 1 := by
  unfold diag_gi
  split
  · split <;> simp
  · simp

theorem length_diag_pain_le (facts : ClinicalFacts) : (diag_pain facts).length ≤ 1 := by
  unfold diag_pain
  split
  · split <;> simp
  · simp

theorem length_diag_red_le (facts : ClinicalFacts) : (diag_red facts).length ≤ 1 := by
  unfold diag_red
  split <;> simp

theorem length_diag_htn_le (facts : ClinicalFacts) : (diag_htn facts).length ≤ 1 := by
  unfold diag_htn
  split <;> simp

/-- At most one candidate per rule, so the accumulated list never exceeds 5
and the truncation `diagnoses[:5]` is the identity. -/
theorem generate_diagnoses_eq (facts : ClinicalFacts) :
    generate_diagnoses facts = diagnoses_accumulated facts := by
  unfold generate_diagnoses
  apply List.take_of_length_le
  unfold diagnoses_accumulated
  simp only [List.length_append]
  have h1 := length_diag_resp_le facts
  have h2 := length_diag_gi_le facts
  have h3 := length_diag_pain_le facts
  have h4 := length_diag_red_le facts
  have h5 := length_diag_htn_le facts
  omega

theorem conf_lt_of_mem_generate_diagnoses {facts : ClinicalFacts} {d : RuleDiagnosis}
    (hd : d ∈ generate_diagnoses facts) (hne : d ≠ emergency_diagnosis facts) :
    d.confidence < 0.95 := by
  rw [generate_diagnoses_eq] at hd
  unfold diagnoses_accumulated at hd
  simp only [List.mem_append] at hd
  rcases hd with (((h | h) | h) | h) | h
  · exact conf_lt_of_mem_diag_resp h
  · exact conf_lt_of_mem_diag_gi h
  · exact conf_lt_of_mem_diag_pain h
  · exact absurd (eq_emergency_of_mem_diag_red h) hne
  · exact conf_lt_of_mem_diag_htn h

theorem emergency_mem_generate_diagnoses {facts : ClinicalFacts}
    (hrf : facts.red_flags ≠ []) :
    emergency_diagnosis facts ∈ generate_diagnoses facts := by
  rw [generate_diagnoses_eq]
  unfold diagnoses_accumulated diag_red
  rw [if_pos hrf]
  simp

theorem pyDedup_cons (x : String) (xs : List String) :
    pyDedup (x :: xs) = x :: pyDedupAux [x] xs := by
  simp [pyDedup, pyDedupAux]

theorem head?_take_succ {α : Type} (l : List α) (n : Nat) :
    (l.take (n + 1)).head? = l.head? := by
  cases l <;> simp

/-- **C3.** For every `ClinicalFacts` with non-empty `red_flags`, the
hypothesis list's highest-confidence (first) entry is the
emergency-condition hypothesis at confidence exactly 0.95 — every other
entry lies strictly below — and the management list's first entry is the
red-flag alert. -/
theorem c3_red_flag_priority (facts : ClinicalFacts) (st : PanelsState)
    (full_text : String) (hrf : facts.red_flags ≠ []) :
    (generate_diagnostic_hypotheses facts full_text).head? =
      some (toHypothesis (emergency_diagnosis facts)) ∧
    (toHypothesis (emergency_diagnosis facts)).conf = 0.95 ∧
    (∀ h ∈ generate_diagnostic_hypotheses facts full_text, h.conf ≤ 0.95) ∧
    (generate_clinical_management facts st).head? =
      some ("🚨 RED FLAG: " ++ String.intercalate "; " facts.red_flags) := by
  have emem := emergency_mem_generate_diagnoses hrf
  have hmap_ne : (generate_diagnoses facts).map toHypothesis ≠ [] := by
    simp only [ne_eq, List.map_eq_nil_iff]
    exact List.ne_nil_of_mem emem
  have hpre : hypotheses_generated facts = (generate_diagnoses facts).map toHypothesis := by
    unfold hypotheses_generated
    rw [if_neg]
    intro hcon
    exact hmap_ne hcon.1
  have hconv_mem : toHypothesis (emergency_diagnosis facts) ∈ hypotheses_generated facts := by
    rw [hpre]
    exact List.mem_map_of_mem toHypothesis emem
  have hmax : ∀ y ∈ hypotheses_generated facts,
      y ≠ toHypothesis (emergency_diagnosis facts) →
      y.conf < (toHypothesis (emergency_diagnosis facts)).conf := by
    intro y hy hne
    rw [hpre] at hy
    obtain ⟨d, hd, rfl⟩ := List.mem_map.mp hy
    have hdne : d ≠ emergency_diagnosis facts := by
      intro hdeq
      exact hne (by rw [hdeq])
    exact conf_lt_of_mem_generate_diagnoses hd hdne
  have hhead : (sortConfDesc (hypotheses_generated facts)).head? =
      some (toHypothesis (emergency_diagnosis facts)) :=
    sortConfDesc_head_max hconv_mem hmax
  refine ⟨?_, rfl, ?_, ?_⟩
  · unfold generate_diagnostic_hypotheses
    rw [show (5 : Nat) = 4 + 1 from rfl, head?_take_succ]
    exact hhead
  · intro h hh
    unfold generate_diagnostic_hypotheses at hh
    have hh2 : h ∈ sortConfDesc (hypotheses_generated facts) := List.mem_of_mem_take hh
    have hh3 : h ∈ hypotheses_generated facts := mem_sortConfDesc.mp hh2
    by_cases heq : h = toHypothesis (emergency_diagnosis facts)
    · rw [heq]
      exact le_of_eq rfl
    · exact le_of_lt (hmax h hh3 heq)
  · simp only [generate_clinical_management, if_pos hrf]
    rw [pyDedup_cons, List.take_succ_cons]
    rfl

/-- Witness for `c3_red_flag_priority` at a concrete input. -/
theorem c3_red_flag_priority_witness :
    (generate_diagnostic_hypotheses { red_flags := ["desmaio"] } "").head? =
      some (toHypothesis (emergency_diagnosis { red_flags := ["desmaio"] })) ∧
    (toHypothesis (emergency_diagnosis { red_flags := ["desmaio"] })).conf = 0.95 ∧
    (∀ h ∈ generate_diagnostic_hypotheses { red_flags := ["desmaio"] } "",
      h.conf ≤ 0.95) ∧
    (generate_clinical_management { red_flags := ["desmaio"] } {}).head? =
      some ("🚨 RED FLAG: " ++ String.intercalate "; " ["desmaio"]) :=
  c3_red_flag_priority { red_flags := ["desmaio"] } {} "" (by simp)

theorem filter_take_pre {α : Type} (p : α → Bool) (n : Nat) (l : List α) :
    (l.take n).filter p <+: l.filter p := by
  conv_rhs => rw [← List.take_append_drop n l]
  rw [List.filter_append]
  exact ⟨_, rfl⟩

/-- **C8.** For every `ClinicalFacts` input, the hypothesis list produced by
the panel builder has length at most 5 and is sorted by confidence in
descending order; equal-confidence hypotheses keep the order in which the
rules generated them: for each confidence value, the entries carrying it
form a prefix of the equally-confident entries of the pre-sort generation
list, in generation order. -/
theorem c8_hypotheses_sorted (facts : ClinicalFacts) (full_text : String) :
    (generate_diagnostic_hypotheses facts full_text).length ≤ 5 ∧
    (generate_diagnostic_hypotheses facts full_text).Sorted
      (fun a b => b.conf ≤ a.conf) ∧
    ∀ q : ℚ,
      (generate_diagnostic_hypotheses facts full_text).filter
          (fun h => decide (h.conf = q)) <+:
        (hypotheses_generated facts).filter (fun h => decide (h.conf = q)) := by
  refine ⟨?_, ?_, ?_⟩
  · unfold generate_diagnostic_hypotheses
    rw [List.length_take]
    exact min_le_left 5 _
  · unfold generate_diagnostic_hypotheses
    exact List.Pairwise.sublist (List.take_sublist 5 _)
      (sortConfDesc_sorted (hypotheses_generated facts))
  · intro q
    unfold generate_diagnostic_hypotheses
    have hpre := filter_take_pre (fun h : DiagnosticHypothesis => decide (h.conf = q)) 5
      (sortConfDesc (hypotheses_generated facts))
    rwa [sortConfDesc_filter_conf] at hpre

/-! ### Properties of first-occurrence de-duplication -/

theorem pyDedupAux_sublist :
    ∀ (l seen : List String), List.Sublist (pyDedupAux seen l) l := by
  intro l
  induction l with
  | nil => intro seen; simp [pyDedupAux]
  | cons x xs ih =>
    intro seen
    unfold pyDedupAux
    by_cases hx : x ∈ seen
    · rw [if_pos hx]
      exact (ih seen).cons x
    · rw [if_neg hx]
      exact List.Sublist.cons₂ x (ih (x :: seen))

theorem pyDedup_sublist (l : List String) : List.Sublist (pyDedup l) l :=
  pyDedupAux_sublist l []

theorem mem_pyDedupAux {a : String} :
    ∀ (l seen : List String), a ∈ pyDedupAux seen l ↔ a ∈ l ∧ a ∉ seen := by
  intro l
  induction l with
  | nil => intro seen; simp [pyDedupAux]
  | cons x xs ih =>
    intro seen
    unfold pyDedupAux
    by_cases hx : x ∈ seen
    · rw [if_pos hx, ih seen]
      simp only [List.mem_cons]
      by_cases hax : a = x
      · subst hax
        simp [hx]
      · simp [hax]
    · rw [if_neg hx]
      simp only [List.mem_cons, ih (x :: seen), List.mem_cons]
      by_cases hax : a = x
      · subst hax
        simp [hx]
      · simp [hax]

theorem mem_pyDedup {a : String} {l : List String} : a ∈ pyDedup l ↔ a ∈ l := by
  rw [pyDedup, mem_pyDedupAux]
  simp

theorem pyDedupAux_nodup : ∀ (l seen : List String), (pyDedupAux seen l).Nodup := by
  intro l
  induction l with
  | nil => intro seen; simp [pyDedupAux]
  | cons x xs ih =>
    intro seen
    unfold pyDedupAux
    by_cases hx : x ∈ seen
    · rw [if_pos hx]
      exact ih seen
    · rw [if_neg hx, List.nodup_cons]
      refine ⟨?_, ih (x :: seen)⟩
      intro hmem
      have := (mem_pyDedupAux xs (x :: seen)).mp hmem
      exact this.2 (List.mem_cons_self x seen)

theorem pyDedup_nodup (l : List String) : (pyDedup l).Nodup :=
  pyDedupAux_nodup l []

theorem pyDedupAux_indexOf_iff {a b : String} (hab : a ≠ b) :
    ∀ (l seen : List String), a ∈ pyDedupAux seen l → b ∈ pyDedupAux seen l →
      ((pyDedupAux seen l).indexOf a < (pyDedupAux seen l).indexOf b ↔
        l.indexOf a < l.indexOf b) := by
  intro l
  induction l with
  | nil => intro seen ha _; simp [pyDedupAux] at ha
  | cons x xs ih =>
    intro seen ha hb
    by_cases hx : x ∈ seen
    · rw [pyDedupAux, if_pos hx] at ha hb ⊢
      have hax : a ≠ x := by
        intro h
        exact ((mem_pyDedupAux xs seen).mp ha).2 (h ▸ hx)
      have hbx : b ≠ x := by
        intro h
        exact ((mem_pyDedupAux xs seen).mp hb).2 (h ▸ hx)
      rw [List.indexOf_cons_ne xs (Ne.symm hax), List.indexOf_cons_ne xs (Ne.symm hbx),
        Nat.succ_lt_succ_iff]
      exact ih seen ha hb
    · rw [pyDedupAux, if_neg hx] at ha hb ⊢
      by_cases hax : a = x
      · subst hax
        rw [List.indexOf_cons_self, List.indexOf_cons_self,
          List.indexOf_cons_ne _ hab, List.indexOf_cons_ne _ hab]
        simp
      · by_cases hbx : b = x
        · subst hbx
          rw [List.indexOf_cons_self, List.indexOf_cons_self,
            List.indexOf_cons_ne _ (Ne.symm hax), List.indexOf_cons_ne _ (Ne.symm hax)]
          simp
        · have ha2 : a ∈ pyDedupAux (x :: seen) xs := by
            rcases List.mem_cons.mp ha with h | h
            · exact absurd h hax
            · exact h
          have hb2 : b ∈ pyDedupAux (x :: seen) xs := by
            rcases List.mem_cons.mp hb with h | h
            · exact absurd h hbx
            · exact h
          rw [List.indexOf_cons_ne _ (Ne.symm hax), List.indexOf_cons_ne _ (Ne.symm hbx),
            List.indexOf_cons_ne _ (Ne.symm hax), List.indexOf_cons_ne _ (Ne.symm hbx),
            Nat.succ_lt_succ_iff, Nat.succ_lt_succ_iff]
          exact ih (x :: seen) ha2 hb2

theorem pyDedup_indexOf_iff {a b : String} (hab : a ≠ b) (l : List String)
    (ha : a ∈ pyDedup l) (hb : b ∈ pyDedup l) :
    ((pyDedup l).indexOf a < (pyDedup l).indexOf b ↔
      l.indexOf a < l.indexOf b) :=
  pyDedupAux_indexOf_iff hab l [] ha hb

/-- **C9.** The final gap-question list has length at most 6, contains no
two entries with identical text, is a sublist of the candidate list
(rule-engine gaps concatenated with basic triage questions), and preserves
the order of first occurrence of the retained entries; and the
de-duplicate-then-truncate step itself maps any 9 candidates to at most 6
entries with no duplicate text. -/
theorem c9_gap_questions (facts : ClinicalFacts) (st : PanelsState) :
    (generate_clinical_questions facts st).length ≤ 6 ∧
    (generate_clinical_questions facts st).Nodup ∧
    List.Sublist (generate_clinical_questions facts st) (question_candidates facts st) ∧
    (∀ x y, x ∈ generate_clinical_questions facts st →
      y ∈ generate_clinical_questions facts st → x ≠ y →
      ((generate_clinical_questions facts st).indexOf x <
          (generate_clinical_questions facts st).indexOf y ↔
        (question_candidates facts st).indexOf x <
          (question_candidates facts st).indexOf y)) ∧
    (∀ c : List String, c.length = 9 →
      ((pyDedup c).take 6).length ≤ 6 ∧ ((pyDedup c).take 6).Nodup) := by
  refine ⟨?_, ?_, ?_, ?_, ?_⟩
  · unfold generate_clinical_questions
    rw [List.length_take]
    exact min_le_left 6 _
  · unfold generate_clinical_questions
    exact List.Nodup.sublist (List.take_sublist 6 _)
      (pyDedup_nodup (question_candidates facts st))
  · unfold generate_clinical_questions
    exact (List.take_sublist 6 _).trans (pyDedup_sublist _)
  · intro x y hx hy hxy
    unfold generate_clinical_questions at hx hy ⊢
    have hxD := List.mem_of_mem_take hx
    have hyD := List.mem_of_mem_take hy
    have hxi : (pyDedup (question_candidates facts st)).indexOf x =
        ((pyDedup (question_candidates facts st)).take 6).indexOf x := by
      conv_lhs => rw [← List.take_append_drop 6 (pyDedup (question_candidates facts st))]
      exact List.indexOf_append_of_mem hx
    have hyi : (pyDedup (question_candidates facts st)).indexOf y =
        ((pyDedup (question_candidates facts st)).take 6).indexOf y := by
      conv_lhs => rw [← List.take_append_drop 6 (pyDedup (question_candidates facts st))]
      exact List.indexOf_append_of_mem hy
    rw [← hxi, ← hyi]
    exact pyDedup_indexOf_iff hxy (question_candidates facts st) hxD hyD
  · intro c _
    constructor
    · rw [List.length_take]
      exact min_le_left 6 _
    · exact List.Nodup.sublist (List.take_sublist 6 _) (pyDedup_nodup c)

/-- Witness for `c9_gap_questions` at concrete inputs, including a
9-candidate list with 3 exact duplicates. -/
theorem c9_gap_questions_witness :
    ((generate_clinical_questions { sintomas := ["dor"] } {}).indexOf
        "Caracterizar a dor: intensidade, duração, fatores de melhora/piora" <
      (generate_clinical_questions { sintomas := ["dor"] } {}).indexOf
        "Investigar medicações em uso regular" ↔
      (question_candidates { sintomas := ["dor"] } {}).indexOf
        "Caracterizar a dor: intensidade, duração, fatores de melhora/piora" <
      (question_candidates { sintomas := ["dor"] } {}).indexOf
        "Investigar medicações em uso regular") ∧
    (((pyDedup ["a", "b", "a", "c", "a", "d", "e", "f", "g"]).take 6).length ≤ 6 ∧
      ((pyDedup ["a", "b", "a", "c", "a", "d", "e", "f", "g"]).take 6).Nodup) := by
  constructor
  · exact (c9_gap_questions { sintomas := ["dor"] } {}).2.2.2.1 _ _
      (by decide) (by decide) (by decide)
  · exact (c9_gap_questions { sintomas := ["dor"] } {}).2.2.2.2 _ (by decide)

/-! ### The periodic panel scheduler (main.py 58-108)

`minute_tick_scheduler` loops once per second while the session exists; the
body of one iteration is `minute_tick`.  Panels are rebuilt and broadcast
only when `transcription_counter % 60 == 0` and the stripped transcript is
non-empty.  `normalize_and_extract` is the external fact-extraction
collaborator (spec §6) and is abstracted as the parameter `facts_of`; the
body's own operations raise no exception (per-connection send failures are
caught inside the broadcast loop, modelled separately), so the scheduler's
catch-log-sleep branch (main.py 106-108) is not reachable from the body. -/

/-- The full panel snapshot sent to panel observers: the rebuilt state plus
the current transcript (main.py 84-86). -/
structure PanelSnapshot where
  panels : PanelsState
  transcript : String
deriving DecidableEq

/-- One iteration of `minute_tick_scheduler` (main.py 65-104): returns the
session's stored `PanelsState` after the tick and the snapshot broadcast to
panel observers, if any. -/
def minute_tick (transcription_counter : Nat) (transcript : String)
    (panels : PanelsState) (facts_of : String → ClinicalFacts) :
    PanelsState × Option PanelSnapshot :=
  if transcription_counter % 60 = 0 then
    if pyStrip transcript.data ≠ [] then
      let facts := facts_of transcript
      let updated := update_panels false panels facts transcript
      (updated, some ⟨updated, transcript⟩)
    else (panels, none)
  else (panels, none)

/-- **C5.** On a tick whose counter is divisible by 60 with a non-empty
(stored, hence whitespace-clean) transcript, the scheduler runs fact
extraction over the full transcript, replaces the stored `PanelsState`
wholesale by the freshly built one, and broadcasts the full snapshot
including the current transcript; on every other tick the stored state is
unchanged and no snapshot is broadcast. -/
theorem c5_scheduler_gate (transcription_counter : Nat) (transcript : String)
    (panels : PanelsState) (facts_of : String → ClinicalFacts)
    (hts : noEdgeSpace transcript.data = true) :
    (transcription_counter % 60 = 0 ∧ transcript ≠ "" →
      minute_tick transcription_counter transcript panels facts_of =
        (update_panels false panels (facts_of transcript) transcript,
          some ⟨update_panels false panels (facts_of transcript) transcript,
            transcript⟩)) ∧
    (¬(transcription_counter % 60 = 0 ∧ transcript ≠ "") →
      minute_tick transcription_counter transcript panels facts_of =
        (panels, none)) := by
  have hdata : pyStrip transcript.data = transcript.data := pyStrip_eq_self hts
  have hiff : transcript ≠ "" ↔ pyStrip transcript.data ≠ [] := by
    rw [hdata]
    constructor
    · intro h hc
      exact h (String.ext_iff.mpr hc)
    · intro h hc
      exact h (by rw [hc])
  constructor
  · rintro ⟨h60, hne⟩
    unfold minute_tick
    rw [if_pos h60, if_pos (hiff.mp hne)]
  · intro hnot
    unfold minute_tick
    by_cases h60 : transcription_counter % 60 = 0
    · rw [if_pos h60]
      have hne : ¬transcript ≠ "" := fun h => hnot ⟨h60, h⟩
      rw [if_neg (fun hc => hne (hiff.mpr hc))]
    · rw [if_neg h60]

/-- Witness for `c5_scheduler_gate`: a 60-divisible tick with transcript
"ola" broadcasts the fresh snapshot; tick 61 changes nothing. -/
theorem c5_scheduler_gate_witness :
    (minute_tick 60 "ola" {} (fun _ => {}) =
      (update_panels false {} {} "ola",
        some ⟨update_panels false {} {} "ola", "ola"⟩)) ∧
    minute_tick 61 "ola" {} (fun _ => {}) = ({}, none) := by
  constructor
  · exact (c5_scheduler_gate 60 "ola" {} (fun _ => {}) (by decide)).1
      ⟨by decide, by decide⟩
  · exact (c5_scheduler_gate 61 "ola" {} (fun _ => {}) (by decide)).2 (by decide)

/-! ### Broadcast fan-out (main.py 276-293; same shape at 89-98)

For each observer websocket of the session, the loop attempts
`ws.send_text`; an exception adds that connection to the local
`disconnected` set without stopping the loop; only after the loop does
`ACTIVE_CONNECTIONS[...] -= disconnected` prune the observer set.
`conns` is the observer set in iteration order; `sendFails ws = true`
models `ws.send_text` raising. -/

/-- The observable trace of one broadcast pass: which connections delivery
was attempted to, in order, and which of them failed. -/
structure BroadcastTrace (Conn : Type) where
  attempts : List Conn
  disconnected : List Conn

/-- One loop iteration of `broadcast_transcript_update` (main.py 286-290). -/
def broadcast_step {Conn : Type} (sendFails : Conn → Bool)
    (acc : BroadcastTrace Conn) (ws : Conn) : BroadcastTrace Conn :=
  { attempts := acc.attempts ++ [ws]
    disconnected := if sendFails ws then acc.disconnected ++ [ws] else acc.disconnected }

/-- `broadcast_transcript_update` (main.py 276-293): run the delivery loop
over every observer, then prune the failed connections from the observer
set (`-= disconnected`).  Returns the trace and the new observer set. -/
def broadcast_transcript_update {Conn : Type} [DecidableEq Conn]
    (conns : List Conn) (sendFails : Conn → Bool) :
    BroadcastTrace Conn × List Conn :=
  let trace := conns.foldl (broadcast_step sendFails) ⟨[], []⟩
  (trace, conns.filter (fun ws => ws ∉ trace.disconnected))

theorem broadcast_foldl {Conn : Type} (sendFails : Conn → Bool) :
    ∀ (conns : List Conn) (acc : BroadcastTrace Conn),
      (conns.foldl (broadcast_step sendFails) acc).attempts =
          acc.attempts ++ conns ∧
        (conns.foldl (broadcast_step sendFails) acc).disconnected =
          acc.disconnected ++ conns.filter sendFails := by
  intro conns
  induction conns with
  | nil => intro acc; simp
  | cons ws rest ih =>
    intro acc
    rw [List.foldl_cons]
    obtain ⟨iha, ihd⟩ := ih (broadcast_step sendFails acc ws)
    constructor
    · rw [iha]
      simp [broadcast_step]
    · rw [ihd]
      unfold broadcast_step
      by_cases hf : sendFails ws
      · rw [List.filter_cons_of_pos hf]
        simp [hf]
      · rw [List.filter_cons_of_neg hf]
        simp [hf]

/-- **C6.** Delivery is attempted to every observer connection, in
iteration order, regardless of which sends fail; the set of removed
connections is exactly the failed ones; and the pruned observer set —
computed only after the whole pass, from the final `disconnected` set — is
the original set minus exactly the failed connections. -/
theorem c6_broadcast_isolation {Conn : Type} [DecidableEq Conn]
    (conns : List Conn) (sendFails : Conn → Bool) :
    (broadcast_transcript_update conns sendFails).1.attempts = conns ∧
    (broadcast_transcript_update conns sendFails).1.disconnected =
      conns.filter sendFails ∧
    (broadcast_transcript_update conns sendFails).2 =
      conns.filter (fun ws => !(sendFails ws)) := by
  obtain ⟨ha, hd⟩ := broadcast_foldl sendFails conns ⟨[], []⟩
  refine ⟨by simpa using ha, by simpa using hd, ?_⟩
  show conns.filter _ = _
  rw [List.filter_congr]
  intro ws hws
  rw [hd]
  simp only [List.nil_append]
  by_cases hf : sendFails ws
  · simp [hf, List.mem_filter, hws]
  · simp [hf, List.mem_filter]

/-- Witness for `c6_broadcast_isolation` at a concrete observer set where
the middle connection fails. -/
theorem c6_broadcast_isolation_witness :
    (broadcast_transcript_update [1, 2, 3] (fun ws => ws == 2)).1.attempts =
        [1, 2, 3] ∧
    (broadcast_transcript_update [1, 2, 3] (fun ws => ws == 2)).1.disconnected =
        [(2 : Nat)] ∧
    (broadcast_transcript_update [1, 2, 3] (fun ws => ws == 2)).2 = [1, 3] := by
  have h := c6_broadcast_isolation [1, 2, 3] (fun ws : Nat => ws == 2)
  exact ⟨h.1, by rw [h.2.1]; decide, by rw [h.2.2]; decide⟩

/-- **C7.** `update_panels` either returns the completely fresh
`PanelsState` — every field rebuilt from the extracted facts — or, on an
internal exception, the prior state unchanged; being a total function it
never raises to its caller, and the fresh state does not depend on the
prior state at all (no partial mutation is possible). -/
theorem c7_update_panels_wholesale (exc : Bool) (current_state : PanelsState)
    (facts : ClinicalFacts) (full_text : String) :
    (update_panels exc current_state facts full_text = current_state ∨
      update_panels exc current_state facts full_text =
        { sindromico := generate_syndromic_summary facts full_text
          hipoteses := generate_diagnostic_hypotheses facts full_text
          perguntas := generate_clinical_questions facts current_state
          condutas := generate_clinical_management facts current_state }) ∧
    (∀ other_state : PanelsState,
      update_panels false current_state facts full_text =
        update_panels false other_state facts full_text) := by
  constructor
  · cases exc
    · right
      rfl
    · left
      rfl
  · intro other_state
    rfl

/-! ### The audio-size gate (main.py 181-190) -/

/-- Handling of one binary message on the audio channel (main.py 181-190):
the chunk — modelled as its list of bytes — is put on the session's audio
queue only when it is larger than 5000 bytes; otherwise it is logged and
dropped. -/
def handle_binary_message (queue : List (List Nat)) (audio_chunk : List Nat) :
    List (List Nat) :=
  if audio_chunk.length > 5000 then queue ++ [audio_chunk] else queue

/-- **C10.** A binary audio message of at most 5000 bytes is silently
discarded, whatever its content: the audio queue is unchanged, so the
transcript the worker produces from the queue — under any transcription
function — is unchanged, and no transcript-update event can result. -/
theorem c10_small_chunk_dropped (queue : List (List Nat)) (audio_chunk : List Nat)
    (hsize : audio_chunk.length ≤ 5000) :
    handle_binary_message queue audio_chunk = queue ∧
    (∀ transcribe : List Nat → List Char,
      process_audio_queue ((handle_binary_message queue audio_chunk).map transcribe) =
        process_audio_queue (queue.map transcribe)) := by
  have heq : handle_binary_message queue audio_chunk = queue := by
    unfold handle_binary_message
    rw [if_neg (by omega)]
  exact ⟨heq, fun transcribe => by rw [heq]⟩

/-- Witness for `c10_small_chunk_dropped`: a 3-byte chunk is dropped. -/
theorem c10_small_chunk_dropped_witness :
    handle_binary_message [] [1, 2, 3] = [] :=
  (c10_small_chunk_dropped [] [1, 2, 3] (by decide)).1

/-! ### Session cleanup (main.py 295-321)

`cleanup_encounter` cancels and removes the scheduler task and the
transcription worker, drains and removes the audio queue, and pops the
transcript and panels entries.  It never touches `ACTIVE_CONNECTIONS`:
neither the audio nor the panels observer-set entry for the encounter is
removed there (the audio endpoint's `finally` block, main.py 232-234, only
discards the single closing websocket from the audio set, leaving both
per-encounter entries in the registry).  The registry is modelled by the
key sets of the global dictionaries (main.py 31-36). -/

structure Registry where
  transcripts : List String
  panels : List String
  running_tasks : List String
  transcription_workers : List String
  audio_queues : List String
  audio_connections : List String
  panel_connections : List String
deriving DecidableEq

/-- `cleanup_encounter` (main.py 295-321), acting on the registry keys. -/
def cleanup_encounter (r : Registry) (encounter_id : String) : Registry :=
  { transcripts := r.transcripts.filter (fun k => k ≠ encounter_id)
    panels := r.panels.filter (fun k => k ≠ encounter_id)
    running_tasks := r.running_tasks.filter (fun k => k ≠ encounter_id)
    transcription_workers := r.transcription_workers.filter (fun k => k ≠ encounter_id)
    audio_queues := r.audio_queues.filter (fun k => k ≠ encounter_id)
    audio_connections := r.audio_connections
    panel_connections := r.panel_connections }

/-- **C4, counterexample.**  The claim says a closed session's entries are
removed from every registry dictionary, including both observer connection
sets; but after `cleanup_encounter` the encounter's audio and panel
observer-set entries are still present. -/
theorem c4_cleanup_counterexample :
    "e1" ∈ (cleanup_encounter ⟨["e1"], ["e1"], ["e1"], ["e1"], ["e1"], ["e1"], ["e1"]⟩
        "e1").panel_connections ∧
    "e1" ∈ (cleanup_encounter ⟨["e1"], ["e1"], ["e1"], ["e1"], ["e1"], ["e1"], ["e1"]⟩
        "e1").audio_connections := by
  constructor <;> exact List.mem_singleton.mpr rfl

/-- **C4, amended.** `cleanup_encounter` removes the session's entry from
the transcript, panels, scheduler-task, worker and audio-queue
dictionaries, but leaves the audio and panel observer connection sets of
the registry untouched. -/
theorem c4_cleanup_amended (r : Registry) (encounter_id : String) :
    encounter_id ∉ (cleanup_encounter r encounter_id).transcripts ∧
    encounter_id ∉ (cleanup_encounter r encounter_id).panels ∧
    encounter_id ∉ (cleanup_encounter r encounter_id).running_tasks ∧
    encounter_id ∉ (cleanup_encounter r encounter_id).transcription_workers ∧
    encounter_id ∉ (cleanup_encounter r encounter_id).audio_queues ∧
    (cleanup_encounter r encounter_id).audio_connections = r.audio_connections ∧
    (cleanup_encounter r encounter_id).panel_connections = r.panel_connections := by
  unfold cleanup_encounter
  refine ⟨?_, ?_, ?_, ?_, ?_, rfl, rfl⟩ <;>
    (intro hmem; have := List.mem_filter.mp hmem; simp at this)
